import Mathlib

/-!
Shallow embedding of the logtrace-system pipeline (Go) for specification
verification.

Source files embedded:
* `internal/middleware/logger.go` — the Gin capture middleware (`Logger`,
  `isBinaryContent`, `bodyLogWriter`), embedded as pure record construction
  over an explicit `GinContext` of request/response data.
* `internal/loki/client.go` — the Loki sink adapter (`SendLog`,
  `SendBatchLogs`); `json.Marshal` of a record is treated as an external
  encoder parameter `enc : LogEntry → Option String` (it is a library call;
  `none` models a marshal error).  An HTTP POST is not performed here:
  the functions return the `PushRequest` that would be POSTed (`none` =
  the function returned before any HTTP call).
* `cmd/comsumer/main.go` — the batching forwarder: the drain loop's message
  processing, the size-threshold flush, the debounced age timer
  (`time.AfterFunc`), and `processBatch` with its per-record fallback.
  Time is modelled in integer milliseconds; the timer callback is
  serialized with the loop (it fires at its deadline, between loop
  iterations).  Go strings are modelled as Lean `String`s: Go `len` counts
  bytes while `String.length` counts characters; the two coincide on
  single-byte (ASCII) content, which is what every claim exercises.
-/

namespace LogTrace

/-- Go `strings.Contains s pat`, modelled as character-list infix. -/
def strContains (s pat : String) : Bool :=
  decide (pat.data <:+: s.data)

/-- Embeds `middleware.LogEntry` (logger.go).  `Latency` is a `float64` of
milliseconds in the source; no claim depends on its arithmetic, so it is
carried as an integer of microseconds-divided-by-1000 untouched.
String fields with `omitempty` use `""` for "absent". -/
structure LogEntry where
  traceID : String
  spanID : String
  timestampNano : Int
  method : String
  path : String
  status : Int
  latencyMs : Int
  clientIP : String
  userAgent : String
  requestBody : String
  responseBody : String
  headers : List (String × String)
  serviceName : String
  environment : String
  error : String
  deriving DecidableEq, Repr

/-- Embeds `isBinaryContent` (logger.go lines 149-160). -/
def isBinaryContent (contentType : String) : Bool :=
  if contentType = "" then false
  else
    strContains contentType "image/" ||
    strContains contentType "video/" ||
    strContains contentType "audio/" ||
    strContains contentType "application/octet-stream" ||
    strContains contentType "application/pdf" ||
    strContains contentType "application/zip"

/-- The body-size cap used by `Logger` (logger.go lines 114, 126). -/
def maxBodyLen : Nat := 10000

/-- The truncation marker appended past the cap. -/
def truncMarker : String := "... (truncated)"

/-- The size-limiting step applied to a captured body
(logger.go lines 114-118 and 126-130). -/
def truncateBody (s : String) : String :=
  if s.length > maxBodyLen then String.mk (s.data.take maxBodyLen) ++ truncMarker
  else s

/-- The all-zero trace identifier `trace.SpanContextFromContext` yields when
no trace is active (logger.go line 58). -/
def zeroTraceID : String := "00000000000000000000000000000000"

/-- Lower-case hex digit, as produced by Go's `hex.EncodeToString`. -/
def hexDigitChar (n : Nat) : Char :=
  if n < 10 then Char.ofNat (48 + n) else Char.ofNat (87 + n)

/-- One byte as two lower-case hex characters. -/
def byteToHex (b : Nat) : List Char :=
  [hexDigitChar (b / 16 % 16), hexDigitChar (b % 16)]

/-- Lower-case hex encoding of a byte string: `trace.TraceID.String()`
renders its 16 bytes this way. -/
def bytesToHex (bs : List Nat) : String :=
  String.mk (bs.map byteToHex).flatten

/-- Models how `uuid.New()` forces the version-4 / variant bits on its 16 random
bytes: `b[6] = b[6]&0x0f | 0x40`, `b[8] = b[8]&0x3f | 0x80`. -/
def uuidSetBits (bs : List Nat) : List Nat :=
  bs.mapIdx fun i b =>
    if i = 6 then 64 + b % 16 else if i = 8 then 128 + b % 64 else b % 256

/-- Models `uuid.UUID.String()`: hex in the 8-4-4-4-12 dashed layout. -/
def uuidString (bs : List Nat) : String :=
  let h := uuidSetBits bs
  bytesToHex (h.take 4) ++ "-" ++ bytesToHex ((h.drop 4).take 2) ++ "-" ++
    bytesToHex ((h.drop 6).take 2) ++ "-" ++ bytesToHex ((h.drop 8).take 2) ++
    "-" ++ bytesToHex (h.drop 10)

/-- Trace-identifier resolution in `Logger` (logger.go lines 53-61):
the span context's trace id rendered as hex, replaced by a freshly
generated UUID when it equals the all-zero sentinel.  `freshBytes` stands
for the random bytes `uuid.New()` draws. -/
def resolveTraceID (spanTraceBytes freshBytes : List Nat) : String :=
  let s := bytesToHex spanTraceBytes
  if s = zeroTraceID then uuidString freshBytes else s

/-- The request/response data `Logger` reads from the Gin context.
`spanTraceBytes` are the 16 bytes of `trace.TraceID`; `freshUUIDBytes` the
16 random bytes `uuid.New()` would draw; `reqBody` is the full request
body stream (`""` when `Body` is nil or `http.NoBody`); `respBody` the
bytes mirrored into the `bodyLogWriter` buffer; `respContentType` the
response writer's `Content-Type` header; `rawHeaders` the request header
map; `errorsStr` is `c.Errors.String()` (`""` when no errors). -/
structure GinContext where
  spanTraceBytes : List Nat
  spanIDHex : String
  freshUUIDBytes : List Nat
  method : String
  path : String
  reqContentType : String
  reqBody : String
  respContentType : String
  respBody : String
  status : Int
  latencyMs : Int
  clientIP : String
  userAgent : String
  rawHeaders : List (String × List String)
  errorsStr : String
  timestampNano : Int
  serviceName : String
  environment : String
  deriving Repr

/-- The request bytes `Logger` buffers (logger.go lines 67-72): read unless
the content type contains `multipart/form-data`. -/
def capturedRequestBytes (c : GinContext) : String :=
  if strContains c.reqContentType "multipart/form-data" then "" else c.reqBody

/-- Embeds the `entry.RequestBody` assignment (logger.go lines 110-119): set only for non-binary
request content types and non-empty captured bytes, truncated at the cap. -/
def requestBodyField (c : GinContext) : String :=
  let bytes := capturedRequestBytes c
  if !isBinaryContent c.reqContentType && bytes.length > 0 then truncateBody bytes
  else ""

/-- Embeds the `entry.ResponseBody` assignment (logger.go lines 121-131): gated by the RESPONSE
writer's content type, truncated at the cap. -/
def responseBodyField (c : GinContext) : String :=
  if !isBinaryContent c.respContentType && c.respBody.length > 0 then
    truncateBody c.respBody
  else ""

/-- Header collection (logger.go lines 82-87): first value per name.
(Go map iteration order is unspecified; the embedding keeps input order —
no claim depends on the order.) -/
def collectHeaders (hs : List (String × List String)) : List (String × String) :=
  hs.filterMap fun kv => kv.2.head?.map fun v => (kv.1, v)

/-- Models the `X-Trace-ID` response header `Logger` sets (logger.go line 64). -/
def xTraceIDHeader (c : GinContext) : String :=
  resolveTraceID c.spanTraceBytes c.freshUUIDBytes

/-- Builds the `LogEntry` published by `Logger` (logger.go lines 90-131). -/
def loggerEntry (c : GinContext) : LogEntry where
  traceID := resolveTraceID c.spanTraceBytes c.freshUUIDBytes
  spanID := c.spanIDHex
  timestampNano := c.timestampNano
  method := c.method
  path := c.path
  status := c.status
  latencyMs := c.latencyMs
  clientIP := c.clientIP
  userAgent := c.userAgent
  requestBody := requestBodyField c
  responseBody := responseBodyField c
  headers := collectHeaders c.rawHeaders
  serviceName := c.serviceName
  environment := c.environment
  error := c.errorsStr

namespace Loki

/-- Embeds `loki.Stream` (client.go): a label set and ordered
(timestamp-string, log-line) pairs. -/
structure Stream where
  stream : List (String × String)
  values : List (String × String)
  deriving DecidableEq, Repr

/-- Embeds `loki.PushRequest` (client.go): the POST body holding the streams. -/
structure PushRequest where
  streams : List Stream
  deriving DecidableEq, Repr

/-- The labels `SendLog` attaches (client.go lines 147-153). -/
def singleLabels (e : LogEntry) : List (String × String) :=
  [("service", e.serviceName), ("environment", e.environment),
   ("trace_id", e.traceID), ("method", e.method), ("status", toString e.status)]

/-- Embeds `Client.SendLog` (client.go lines 135-168): marshal the entry (error
aborts before any HTTP call, modelled as `none`), pair it with its
`UnixNano` timestamp rendered in decimal, and POST a one-stream request. -/
def SendLog (enc : LogEntry → Option String) (e : LogEntry) :
    Option PushRequest :=
  (enc e).map fun line =>
    ⟨[⟨singleLabels e, [(toString e.timestampNano, line)]⟩]⟩

/-- The grouping key of `SendBatchLogs` (client.go line 211):
`fmt.Sprintf("%s-%s-%s", ServiceName, Environment, TraceID)`. -/
def groupKey (e : LogEntry) : String :=
  e.serviceName ++ "-" ++ e.environment ++ "-" ++ e.traceID

/-- The labels `SendBatchLogs` takes from a group's first entry
(client.go lines 222-228). -/
def batchLabels (first : LogEntry) : List (String × String) :=
  [("service", first.serviceName), ("environment", first.environment),
   ("trace_id", first.traceID)]

/-- The entries accumulated under one key of `streamMap`
(client.go lines 208-213), in input order. -/
def groupOf (entries : List LogEntry) (k : String) : List LogEntry :=
  entries.filter fun e => groupKey e = k

/-- The distinct keys of `streamMap`.  Go map iteration order is
unspecified; the embedding fixes one order (no claim depends on it). -/
def streamKeys (entries : List LogEntry) : List String :=
  (entries.map groupKey).dedup

/-- Computes the `values` of one stream (client.go lines 230-241): entries whose
marshal fails are skipped. -/
def streamValues (enc : LogEntry → Option String) (group : List LogEntry) :
    List (String × String) :=
  group.filterMap fun e =>
    (enc e).map fun line => (toString e.timestampNano, line)

/-- One stream per group (client.go lines 216-247); the `[]` case mirrors
the source's `if len(group) == 0 continue` and is unreachable from
`SendBatchLogs` since every key has at least one entry. -/
def streamOfGroup (enc : LogEntry → Option String) (group : List LogEntry) :
    Stream :=
  match group with
  | [] => ⟨[], []⟩
  | first :: _ => ⟨batchLabels first, streamValues enc group⟩

/-- Embeds `Client.SendBatchLogs` (client.go lines 202-255): empty input returns
nil immediately with no HTTP call (`none`); otherwise one POST of the
grouped request (`some`). -/
def SendBatchLogs (enc : LogEntry → Option String) (entries : List LogEntry) :
    Option PushRequest :=
  if entries.length = 0 then none
  else some ⟨(streamKeys entries).map fun k => streamOfGroup enc (groupOf entries k)⟩

end Loki

namespace Consumer

/-- Embeds `batchSize` (comsumer/main.go line 67). -/
def batchSize : Nat := 100

/-- Embeds `batchTimeoutMs` (comsumer/main.go line 68). -/
def batchTimeoutMs : Nat := 1000

/-- The per-fetch message loop (comsumer/main.go lines 107-121): each
message's payload is `json.Unmarshal`led (`none` = malformed payload);
a malformed message is acknowledged and dropped, a well-formed one is
appended to the batch and acknowledged.  Returns the new batch and the
number of acknowledgments issued. -/
def drainMsgs (batch : List LogEntry) (msgs : List (Option LogEntry)) :
    List LogEntry × Nat :=
  msgs.foldl
    (fun acc m =>
      match m with
      | none => (acc.1, acc.2 + 1)
      | some e => (acc.1 ++ [e], acc.2 + 1))
    (batch, 0)

/-- An HTTP delivery attempt `processBatch` makes against the Loki client. -/
inductive SinkCall where
  | batchCall (records : List LogEntry)
  | singleCall (record : LogEntry)
  deriving DecidableEq, Repr

/-- Embeds `processBatch` (comsumer/main.go lines 149-173), with the sink's
responses abstracted as oracles `sinkBatchOK` / `sinkOneOK`.  Returns the
sink calls made, in order, and the records whose individual send failed
(each of which is logged; none is re-queued — the function has no path
back to the queue). -/
def processBatch (sinkBatchOK : List LogEntry → Bool)
    (sinkOneOK : LogEntry → Bool) (batch : List LogEntry) :
    List SinkCall × List LogEntry :=
  if batch.length = 0 then ([], [])
  else if sinkBatchOK batch then ([.batchCall batch], [])
  else (.batchCall batch :: batch.map .singleCall,
        batch.filter fun e => !sinkOneOK e)

/-- Why a flush happened. -/
inductive FlushTrigger where
  | size
  | timer
  deriving DecidableEq, Repr

/-- One call to `processBatch` made by the drain loop or the timer
callback: its time (ms), the records handed over, and its trigger. -/
structure Flush where
  time : Nat
  records : List LogEntry
  trigger : FlushTrigger
  deriving DecidableEq, Repr

/-- The forwarder's state: the shared batch and the `time.AfterFunc`
timer (armed flag and absolute deadline in ms). -/
structure ConsumerState where
  batch : List LogEntry
  timerArmed : Bool
  timerDeadline : Nat
  deriving DecidableEq, Repr

/-- Embeds `resetTimer` (comsumer/main.go lines 70-81): stop any pending timer
and arm a fresh one `batchTimeoutMs` from now. -/
def resetTimer (now : Nat) (s : ConsumerState) : ConsumerState :=
  { s with timerArmed := true, timerDeadline := now + batchTimeoutMs }

/-- Loop entry (comsumer/main.go line 83): empty batch, timer armed at
time 0. -/
def initState : ConsumerState :=
  resetTimer 0 ⟨[], false, 0⟩

/-- Embeds the `time.AfterFunc` callback (comsumer/main.go lines 74-80), run when
its deadline has passed by time `t`: flush a non-empty batch and clear it.
The callback does not re-arm the timer.  The embedding serializes it with
the loop: it fires at its deadline, between fetch iterations. -/
def fireTimerUpTo (t : Nat) (s : ConsumerState) : ConsumerState × List Flush :=
  if s.timerArmed = true ∧ s.timerDeadline ≤ t then
    if s.batch.length > 0 then
      ({ s with batch := [], timerArmed := false },
       [⟨s.timerDeadline, s.batch, .timer⟩])
    else ({ s with timerArmed := false }, [])
  else (s, [])

/-- One iteration of the drain loop (comsumer/main.go lines 85-132) whose
`Fetch` returned `msgs` at time `t` (after letting the timer fire if its
deadline fell due first).  `msgs = []` models `nats.ErrTimeout`: the loop
`continue`s without touching the batch or the timer.  Otherwise the
messages are processed, then: batch at or over `batchSize` → flush it all,
clear it, reset the timer; non-empty under the threshold → reset the
timer only. -/
def consumerFetchStep (s : ConsumerState) (t : Nat)
    (msgs : List (Option LogEntry)) : ConsumerState × List Flush :=
  let s1fs := fireTimerUpTo t s
  let s1 := s1fs.1
  let fs1 := s1fs.2
  if msgs.length = 0 then (s1, fs1)
  else
    let batch1 := (drainMsgs s1.batch msgs).1
    if batchSize ≤ batch1.length then
      (resetTimer t { s1 with batch := [] }, fs1 ++ [⟨t, batch1, .size⟩])
    else if 0 < batch1.length then
      (resetTimer t { s1 with batch := batch1 }, fs1)
    else ({ s1 with batch := batch1 }, fs1)

/-- Records one `Fetch` return: the time it completed and the messages it carried
(each already decoded to `Option LogEntry` by `json.Unmarshal`). -/
structure FetchEvent where
  time : Nat
  msgs : List (Option LogEntry)
  deriving DecidableEq, Repr

/-- One loop iteration as seen by the run: advance the state and collect
the new flushes after the old ones. -/
def runStep (acc : ConsumerState × List Flush) (ev : FetchEvent) :
    ConsumerState × List Flush :=
  let r := consumerFetchStep acc.1 ev.time ev.msgs
  (r.1, acc.2 ++ r.2)

/-- The drain loop run over a schedule of fetch returns, collecting every
flush (batch handed to `processBatch`) in order. -/
def runConsumer (evs : List FetchEvent) : ConsumerState × List Flush :=
  evs.foldl runStep (initState, [])

end Consumer

/-- A fixed record used by concrete evaluations. -/
def testEntry : LogEntry :=
  { traceID := "4bf92f3577b34da6a3ce929d0e0e4736", spanID := "00f067aa0ba902b7"
    timestampNano := 1700000000000000000, method := "GET", path := "/ping"
    status := 200, latencyMs := 1, clientIP := "127.0.0.1", userAgent := "curl"
    requestBody := "", responseBody := "", headers := []
    serviceName := "microservice", environment := "development", error := "" }

/-- A second record with a different grouping key. -/
def testEntryB : LogEntry :=
  { testEntry with serviceName := "other", method := "POST", status := 500 }

/-- An encoder standing for a `json.Marshal` that succeeds. -/
def encOK : LogEntry → Option String := fun _ => some "line"

/-- A sink oracle rejecting every batch POST. -/
def rejectBatch : List LogEntry → Bool := fun _ => false

/-- A sink oracle accepting every individual POST. -/
def acceptOne : LogEntry → Bool := fun _ => true

/-- A fetch schedule: 60 well-formed messages land at t=0 into an empty
batch (60 < 100, no flush), then a full fetch of 100 lands at t=500.
The loop appends all 100 before checking the threshold, so the batch
holds 160 records when the size flush finally runs. -/
def c1Evs : List Consumer.FetchEvent :=
  [⟨0, List.replicate 60 (some testEntry)⟩,
   ⟨500, List.replicate 100 (some testEntry)⟩]

/-- A fetch schedule: one record at t=500, 1400, 2300.  Each append
re-arms the age timer, so the deadline is pushed to 1500, 2400, 3300 and
no flush has happened by t=2300 although the first unflushed record is
1800 ms old — older than `batchTimeoutMs`. -/
def c2Evs : List Consumer.FetchEvent :=
  [⟨500, [some testEntry]⟩, ⟨1400, [some testEntry]⟩, ⟨2300, [some testEntry]⟩]

/-- A baseline Gin context for concrete evaluations. -/
def baseCtx : GinContext :=
  { spanTraceBytes := 75 :: List.replicate 15 1
    spanIDHex := "00f067aa0ba902b7"
    freshUUIDBytes := List.replicate 16 7
    method := "GET", path := "/ping"
    reqContentType := "", reqBody := ""
    respContentType := "", respBody := ""
    status := 200, latencyMs := 1
    clientIP := "127.0.0.1", userAgent := "curl"
    rawHeaders := [], errorsStr := ""
    timestampNano := 1700000000000000000
    serviceName := "microservice", environment := "development" }

/-- A request carrying a binary content type (`image/png`) and a 500-byte
body, whose response is `text/plain` with body `"ok"`. -/
def binCtx : GinContext :=
  { baseCtx with
    method := "POST", path := "/upload"
    reqContentType := "image/png"
    reqBody := String.mk (List.replicate 500 'a')
    respContentType := "text/plain"
    respBody := "ok"
    rawHeaders := [("Content-Type", ["image/png"])] }

/-- A multipart request with a small non-empty body: its content type is
not classified binary, yet the body is never captured. -/
def multipartCtx : GinContext :=
  { baseCtx with
    method := "POST", path := "/form"
    reqContentType := "multipart/form-data"
    reqBody := "abc" }

/-- A plain-text request with a small non-empty body. -/
def textCtx : GinContext :=
  { baseCtx with
    method := "POST", path := "/echo"
    reqContentType := "text/plain"
    reqBody := "hello" }

/-- A request whose trace context is the all-zero sentinel. -/
def zeroTraceCtx : GinContext :=
  { baseCtx with spanTraceBytes := List.replicate 16 0 }

/-- A batch with two grouping keys for the grouping theorem's witness. -/
def groupEntries : List LogEntry := [testEntry, testEntryB, testEntry]

/-- A non-empty string has positive length. -/
theorem string_pos_of_ne_empty (s : String) (h : s ≠ "") : 0 < s.length := by
  cases s with
  | mk data =>
    cases data with
    | nil => exact absurd rfl h
    | cons c cs => simp [String.length]

/-- Hex encoding yields two characters per byte. -/
theorem bytesToHex_length (bs : List Nat) : (bytesToHex bs).length = 2 * bs.length := by
  show ((bs.map byteToHex).flatten).length = 2 * bs.length
  induction bs with
  | nil => rfl
  | cons b bs ih =>
    simp only [List.map_cons, List.flatten_cons, List.length_append, ih, byteToHex,
      List.length_cons, List.length_nil, List.length_singleton]
    omega

/-- A formatted UUID is never the empty string (its dashes alone give it
positive length). -/
theorem uuidString_length_pos (bs : List Nat) : 0 < (uuidString bs).length := by
  unfold uuidString
  simp only [String.length_append]
  have h1 : ("-" : String).length = 1 := rfl
  omega

/-- Truncation returns the empty string only on the empty string. -/
theorem truncateBody_eq_empty_iff (s : String) : truncateBody s = "" ↔ s = "" := by
  unfold truncateBody
  split
  · rename_i h
    constructor
    · intro he
      have hlen := congrArg String.length he
      rw [String.length_append] at hlen
      have hm : truncMarker.length = 15 := rfl
      have h0 : ("" : String).length = 0 := rfl
      omega
    · intro he
      subst he
      exact absurd h (by decide)
  · exact Iff.rfl

/-- C5.  Every response carries a non-empty `X-Trace-ID` header: when the
span context's 16-byte trace identifier is non-zero its hex form is used,
and when it is the all-zero sentinel a freshly generated UUID is used
instead. -/
theorem c5_trace_header (c : GinContext) (h : c.spanTraceBytes.length = 16) :
    xTraceIDHeader c ≠ "" ∧
    (bytesToHex c.spanTraceBytes ≠ zeroTraceID →
      xTraceIDHeader c = bytesToHex c.spanTraceBytes) ∧
    (bytesToHex c.spanTraceBytes = zeroTraceID →
      xTraceIDHeader c = uuidString c.freshUUIDBytes) := by
  by_cases hz : bytesToHex c.spanTraceBytes = zeroTraceID
  · have hdr : xTraceIDHeader c = uuidString c.freshUUIDBytes := by
      simp [xTraceIDHeader, resolveTraceID, hz]
    refine ⟨?_, fun hne => absurd hz hne, fun _ => hdr⟩
    intro he
    have hp := uuidString_length_pos c.freshUUIDBytes
    rw [← hdr, he] at hp
    have h0 : ("" : String).length = 0 := rfl
    omega
  · have hdr : xTraceIDHeader c = bytesToHex c.spanTraceBytes := by
      simp [xTraceIDHeader, resolveTraceID, hz]
    refine ⟨?_, fun _ => hdr, fun hzz => absurd hzz hz⟩
    intro he
    have hl := bytesToHex_length c.spanTraceBytes
    rw [← hdr, he, h] at hl
    have h0 : ("" : String).length = 0 := rfl
    omega

/-- Witness for C5 at a concrete context whose trace bytes are non-zero. -/
theorem c5_trace_header_witness :
    baseCtx.spanTraceBytes.length = 16 ∧
    (xTraceIDHeader baseCtx ≠ "" ∧
     (bytesToHex baseCtx.spanTraceBytes ≠ zeroTraceID →
       xTraceIDHeader baseCtx = bytesToHex baseCtx.spanTraceBytes) ∧
     (bytesToHex baseCtx.spanTraceBytes = zeroTraceID →
       xTraceIDHeader baseCtx = uuidString baseCtx.freshUUIDBytes)) :=
  ⟨by decide, c5_trace_header baseCtx (by decide)⟩

/-- Counterexample to C3 as stated: a request with `Content-Type:
image/png` and a 500-byte body whose response is `text/plain` `"ok"`
produces a record with the request body absent but the RESPONSE body
present — the response-body gate reads the response's content type, not
the request's. -/
theorem c3_counterexample :
    isBinaryContent binCtx.reqContentType = true ∧
    (loggerEntry binCtx).requestBody = "" ∧
    (loggerEntry binCtx).responseBody = "ok" ∧
    (loggerEntry binCtx).responseBody ≠ "" := by
  refine ⟨by decide, by decide, by decide, by decide⟩

/-- C3 as amended: for a request whose content type is classified binary
the record's request-body field is absent, and the response-body field is
absent exactly when the response's own content type is binary or the
response body is empty. -/
theorem c3_amended (c : GinContext)
    (hbin : isBinaryContent c.reqContentType = true) :
    (loggerEntry c).requestBody = "" ∧
    ((loggerEntry c).responseBody = "" ↔
      (isBinaryContent c.respContentType = true ∨ c.respBody = "")) := by
  constructor
  · simp [loggerEntry, requestBodyField, hbin]
  · show responseBodyField c = "" ↔ _
    unfold responseBodyField
    by_cases hrb : isBinaryContent c.respContentType = true
    · simp [hrb]
    · have hrb' : isBinaryContent c.respContentType = false := by
        revert hrb; cases isBinaryContent c.respContentType <;> simp
      by_cases hemp : c.respBody = ""
      · simp [hrb', hemp]
      · have hpos : 0 < c.respBody.length := string_pos_of_ne_empty _ hemp
        simp [hrb', hpos, truncateBody_eq_empty_iff, hemp]

/-- Witness for C3's amended theorem at the concrete binary-request
context. -/
theorem c3_amended_witness :
    isBinaryContent binCtx.reqContentType = true ∧
    ((loggerEntry binCtx).requestBody = "" ∧
     ((loggerEntry binCtx).responseBody = "" ↔
       (isBinaryContent binCtx.respContentType = true ∨ binCtx.respBody = ""))) :=
  ⟨by decide, c3_amended binCtx (by decide)⟩

/-- Counterexample to C4 as stated: `multipart/form-data` is not
classified binary, yet a small non-empty multipart body is never captured
— the record's request-body field stays absent instead of equalling the
body. -/
theorem c4_counterexample :
    isBinaryContent multipartCtx.reqContentType = false ∧
    multipartCtx.reqBody = "abc" ∧
    multipartCtx.reqBody.length < maxBodyLen ∧
    multipartCtx.reqBody ≠ "" ∧
    (loggerEntry multipartCtx).requestBody = "" := by
  refine ⟨by decide, by decide, by decide, by decide, by decide⟩

/-- C4 as amended: for a request with a non-binary, non-multipart content
type and a non-empty body, the record's request-body field equals the
body exactly when it is within the 10000-character cap, and equals the
first 10000 characters followed by the truncation marker when over it. -/
theorem c4_amended (c : GinContext)
    (hbin : isBinaryContent c.reqContentType = false)
    (hmp : strContains c.reqContentType "multipart/form-data" = false)
    (hne : c.reqBody ≠ "") :
    (c.reqBody.length ≤ maxBodyLen →
      (loggerEntry c).requestBody = c.reqBody) ∧
    (maxBodyLen < c.reqBody.length →
      (loggerEntry c).requestBody =
        String.mk (c.reqBody.data.take maxBodyLen) ++ truncMarker) := by
  have hcap : capturedRequestBytes c = c.reqBody := by
    simp [capturedRequestBytes, hmp]
  have hpos : 0 < c.reqBody.length := string_pos_of_ne_empty _ hne
  have hfield : (loggerEntry c).requestBody = truncateBody c.reqBody := by
    show requestBodyField c = _
    unfold requestBodyField
    simp [hcap, hbin, hpos]
  constructor
  · intro hle
    have hnot : ¬ c.reqBody.length > maxBodyLen := by omega
    rw [hfield]
    unfold truncateBody
    simp [hnot]
  · intro hgt
    rw [hfield]
    unfold truncateBody
    simp [hgt]

/-- Witness for C4's amended theorem at a concrete plain-text request. -/
theorem c4_amended_witness :
    (isBinaryContent textCtx.reqContentType = false ∧
     strContains textCtx.reqContentType "multipart/form-data" = false ∧
     textCtx.reqBody ≠ "") ∧
    ((textCtx.reqBody.length ≤ maxBodyLen →
       (loggerEntry textCtx).requestBody = textCtx.reqBody) ∧
     (maxBodyLen < textCtx.reqBody.length →
       (loggerEntry textCtx).requestBody =
         String.mk (textCtx.reqBody.data.take maxBodyLen) ++ truncMarker)) :=
  ⟨⟨by decide, by decide, by decide⟩,
   c4_amended textCtx (by decide) (by decide) (by decide)⟩

/-- The message loop appends exactly the decodable payloads, in order,
and acknowledges every fetched message. -/
theorem drainMsgs_eq (batch : List LogEntry) (msgs : List (Option LogEntry)) :
    Consumer.drainMsgs batch msgs = (batch ++ msgs.filterMap id, msgs.length) := by
  suffices h : ∀ (ms : List (Option LogEntry)) (b : List LogEntry) (n : Nat),
      ms.foldl
        (fun acc m =>
          match m with
          | none => (acc.1, acc.2 + 1)
          | some e => (acc.1 ++ [e], acc.2 + 1))
        (b, n) = (b ++ ms.filterMap id, n + ms.length) by
    simpa [Consumer.drainMsgs] using h msgs batch 0
  intro ms
  induction ms with
  | nil => intro b n; simp
  | cons m rest ih =>
    intro b n
    cases m with
    | none =>
      simp only [List.foldl_cons, ih, List.filterMap_cons_none, Prod.mk.injEq,
        List.length_cons]
      exact ⟨rfl, by omega⟩
    | some e =>
      simp only [List.foldl_cons, ih, List.filterMap_cons_some, Prod.mk.injEq,
        List.length_cons, List.append_assoc, List.singleton_append]
      exact ⟨rfl, by omega⟩

/-- The timer callback conserves records: whatever it flushes plus what
remains is the batch it saw. -/
theorem fireTimerUpTo_conserve (t : Nat) (s : Consumer.ConsumerState) :
    (((Consumer.fireTimerUpTo t s).2.map Consumer.Flush.records).flatten) ++
      (Consumer.fireTimerUpTo t s).1.batch = s.batch := by
  unfold Consumer.fireTimerUpTo
  split
  · split <;> simp
  · simp

/-- The timer callback's flushes are timer-triggered and non-empty. -/
theorem fireTimerUpTo_flush_prop (t : Nat) (s : Consumer.ConsumerState) :
    ∀ f ∈ (Consumer.fireTimerUpTo t s).2,
      f.trigger = Consumer.FlushTrigger.timer ∧ f.records ≠ [] := by
  unfold Consumer.fireTimerUpTo
  split
  · split
    · rename_i hlen
      intro f hf
      simp only [List.mem_singleton] at hf
      subst hf
      refine ⟨rfl, ?_⟩
      intro hnil
      have hnil' : s.batch = [] := hnil
      rw [hnil'] at hlen
      simp at hlen
    · intro f hf; simp at hf
  · intro f hf; simp at hf

/-- The timer callback leaves the batch alone or empties it. -/
theorem fireTimerUpTo_batch (t : Nat) (s : Consumer.ConsumerState) :
    (Consumer.fireTimerUpTo t s).1.batch = s.batch ∨
    (Consumer.fireTimerUpTo t s).1.batch = [] := by
  unfold Consumer.fireTimerUpTo
  split
  · split
    · right; rfl
    · left; rfl
  · left; rfl

/-- One drain iteration conserves records: flushed records plus the
retained batch are the old batch followed by the fetched set's decodable
payloads, in order. -/
theorem consumerFetchStep_conserve (s : Consumer.ConsumerState) (t : Nat)
    (msgs : List (Option LogEntry)) :
    (((Consumer.consumerFetchStep s t msgs).2.map Consumer.Flush.records).flatten) ++
      (Consumer.consumerFetchStep s t msgs).1.batch
      = s.batch ++ msgs.filterMap id := by
  have hft := fireTimerUpTo_conserve t s
  unfold Consumer.consumerFetchStep
  by_cases h0 : msgs.length = 0
  · have hnil : msgs = [] := List.eq_nil_of_length_eq_zero h0
    subst hnil
    simpa using hft
  · simp only [if_neg h0, drainMsgs_eq]
    split
    · simp only [Consumer.resetTimer, List.map_append, List.flatten_append,
        List.map_cons, List.flatten_cons, List.map_nil, List.flatten_nil,
        List.append_nil, List.append_assoc]
      rw [← List.append_assoc, hft]
    · split
      · simpa [List.append_assoc] using congrArg (· ++ msgs.filterMap id) hft
      · simpa [List.append_assoc] using congrArg (· ++ msgs.filterMap id) hft

/-- One drain iteration's flushes are non-empty, and its size-triggered
flushes carry at least `batchSize` records. -/
theorem consumerFetchStep_flush_prop (s : Consumer.ConsumerState) (t : Nat)
    (msgs : List (Option LogEntry)) :
    ∀ f ∈ (Consumer.consumerFetchStep s t msgs).2,
      f.records ≠ [] ∧
      (f.trigger = Consumer.FlushTrigger.size →
        Consumer.batchSize ≤ f.records.length) := by
  have htimer := fireTimerUpTo_flush_prop t s
  have hprop : ∀ f ∈ (Consumer.fireTimerUpTo t s).2,
      f.records ≠ [] ∧
      (f.trigger = Consumer.FlushTrigger.size →
        Consumer.batchSize ≤ f.records.length) := by
    intro f hf
    obtain ⟨htrig, hne⟩ := htimer f hf
    refine ⟨hne, ?_⟩
    intro hsz
    rw [htrig] at hsz
    cases hsz
  unfold Consumer.consumerFetchStep
  by_cases h0 : msgs.length = 0
  · simpa [h0] using hprop
  · simp only [if_neg h0, drainMsgs_eq]
    split
    · rename_i hsz
      intro f hf
      rw [List.mem_append] at hf
      cases hf with
      | inl hf => exact hprop f hf
      | inr hf =>
        simp only [List.mem_singleton] at hf
        subst hf
        refine ⟨?_, fun _ => hsz⟩
        intro hnil
        have hnil' : (Consumer.fireTimerUpTo t s).1.batch ++
            List.filterMap id msgs = [] := hnil
        rw [hnil'] at hsz
        exact absurd hsz (by decide)
    · split
      · simpa using hprop
      · simpa using hprop

/-- One drain iteration keeps the retained batch under `batchSize`. -/
theorem consumerFetchStep_batch_lt (s : Consumer.ConsumerState) (t : Nat)
    (msgs : List (Option LogEntry))
    (h : s.batch.length < Consumer.batchSize) :
    (Consumer.consumerFetchStep s t msgs).1.batch.length < Consumer.batchSize := by
  have hbatch : (Consumer.fireTimerUpTo t s).1.batch.length < Consumer.batchSize := by
    cases fireTimerUpTo_batch t s with
    | inl he => rw [he]; exact h
    | inr he => rw [he]; decide
  unfold Consumer.consumerFetchStep
  by_cases h0 : msgs.length = 0
  · simpa [h0] using hbatch
  · simp only [if_neg h0, drainMsgs_eq]
    split
    · simpa [Consumer.resetTimer] using (by decide : 0 < Consumer.batchSize)
    · rename_i hsz
      split
      · simpa [Consumer.resetTimer] using Nat.lt_of_not_le hsz
      · simpa using Nat.lt_of_not_le hsz

/-- Record conservation lifted to the whole run. -/
theorem foldl_runStep_conserve (evs : List Consumer.FetchEvent) :
    ∀ (s : Consumer.ConsumerState) (fs : List Consumer.Flush),
    ((evs.foldl Consumer.runStep (s, fs)).2.map Consumer.Flush.records).flatten ++
      (evs.foldl Consumer.runStep (s, fs)).1.batch
    = (fs.map Consumer.Flush.records).flatten ++ s.batch ++
      ((evs.map Consumer.FetchEvent.msgs).flatten.filterMap id) := by
  induction evs with
  | nil => intro s fs; simp
  | cons ev evs ih =>
    intro s fs
    simp only [List.foldl_cons, Consumer.runStep]
    rw [ih]
    have hstep := consumerFetchStep_conserve s ev.time ev.msgs
    simp only [List.map_append, List.flatten_append, List.map_cons,
      List.flatten_cons, List.filterMap_append, ← List.append_assoc]
    congr 1
    rw [List.append_assoc, hstep, List.append_assoc]

/-- Flush shape lifted to the whole run. -/
theorem foldl_runStep_flush_prop (evs : List Consumer.FetchEvent) :
    ∀ (s : Consumer.ConsumerState) (fs : List Consumer.Flush),
    (∀ f ∈ fs, f.records ≠ [] ∧
      (f.trigger = Consumer.FlushTrigger.size →
        Consumer.batchSize ≤ f.records.length)) →
    ∀ f ∈ (evs.foldl Consumer.runStep (s, fs)).2,
      f.records ≠ [] ∧
      (f.trigger = Consumer.FlushTrigger.size →
        Consumer.batchSize ≤ f.records.length) := by
  induction evs with
  | nil => intro s fs hfs; simpa using hfs
  | cons ev evs ih =>
    intro s fs hfs
    simp only [List.foldl_cons, Consumer.runStep]
    refine ih _ _ ?_
    intro f hf
    rw [List.mem_append] at hf
    cases hf with
    | inl hf => exact hfs f hf
    | inr hf => exact consumerFetchStep_flush_prop s ev.time ev.msgs f hf

/-- Batch-size invariant lifted to the whole run. -/
theorem foldl_runStep_batch_lt (evs : List Consumer.FetchEvent) :
    ∀ (s : Consumer.ConsumerState) (fs : List Consumer.Flush),
    s.batch.length < Consumer.batchSize →
    (evs.foldl Consumer.runStep (s, fs)).1.batch.length < Consumer.batchSize := by
  induction evs with
  | nil => intro s fs h; simpa using h
  | cons ev evs ih =>
    intro s fs h
    simp only [List.foldl_cons, Consumer.runStep]
    exact ih _ _ (consumerFetchStep_batch_lt s ev.time ev.msgs h)

set_option maxRecDepth 100000 in
/-- Counterexample to C1 as stated: a 60-record batch followed by a full
100-message fetch grows the batch to 160 before the size check runs, so
the single size-triggered flush carries 160 records — the batch exceeded
`batchSize` and the flush did not fire at exactly the threshold. -/
theorem c1_counterexample :
    ((Consumer.runConsumer c1Evs).2.map fun f => f.records.length) = [160] ∧
    ((Consumer.runConsumer c1Evs).2.map Consumer.Flush.trigger) =
      [Consumer.FlushTrigger.size] ∧
    Consumer.batchSize = 100 := by
  refine ⟨by decide, by decide, by decide⟩

/-- C1 as amended: the size check runs only after a whole fetched set has
been appended, so a size-triggered flush carries at least `batchSize`
records (possibly more), and the batch retained between drain iterations
is always strictly below `batchSize`; a size flush clears the batch and
re-arms the timer. -/
theorem c1_amended (evs : List Consumer.FetchEvent) :
    (Consumer.runConsumer evs).1.batch.length < Consumer.batchSize ∧
    (∀ f ∈ (Consumer.runConsumer evs).2,
      f.trigger = Consumer.FlushTrigger.size →
        Consumer.batchSize ≤ f.records.length) ∧
    (∀ (s : Consumer.ConsumerState) (t : Nat) (msgs : List (Option LogEntry)),
      msgs ≠ [] →
      Consumer.batchSize ≤
        ((Consumer.fireTimerUpTo t s).1.batch ++ msgs.filterMap id).length →
      (Consumer.consumerFetchStep s t msgs).1 =
        Consumer.resetTimer t
          { (Consumer.fireTimerUpTo t s).1 with batch := [] }) := by
  refine ⟨?_, ?_, ?_⟩
  · exact foldl_runStep_batch_lt evs Consumer.initState [] (by decide)
  · intro f hf
    exact (foldl_runStep_flush_prop evs Consumer.initState []
      (by intro f hf; simp at hf) f hf).2
  · intro s t msgs hne hsz
    have h0 : ¬ msgs.length = 0 := by
      intro h; exact hne (List.eq_nil_of_length_eq_zero h)
    unfold Consumer.consumerFetchStep
    simp only [if_neg h0, drainMsgs_eq]
    rw [if_pos hsz]

/-- Witness for C1's amended theorem at the concrete 60+100 schedule. -/
theorem c1_amended_witness :
    (Consumer.runConsumer c1Evs).1.batch.length < Consumer.batchSize ∧
    (∀ f ∈ (Consumer.runConsumer c1Evs).2,
      f.trigger = Consumer.FlushTrigger.size →
        Consumer.batchSize ≤ f.records.length) ∧
    (∀ (s : Consumer.ConsumerState) (t : Nat) (msgs : List (Option LogEntry)),
      msgs ≠ [] →
      Consumer.batchSize ≤
        ((Consumer.fireTimerUpTo t s).1.batch ++ msgs.filterMap id).length →
      (Consumer.consumerFetchStep s t msgs).1 =
        Consumer.resetTimer t
          { (Consumer.fireTimerUpTo t s).1 with batch := [] }) :=
  c1_amended c1Evs

/-- Counterexample to C2 as stated: records arriving at t = 500, 1400 and
2300 each re-arm the age timer, so by t = 2300 the first unflushed record
is 1800 ms old — past `batchTimeoutMs` — yet no flush has occurred and
none can occur before the pending deadline at t = 3300. -/
theorem c2_counterexample :
    (Consumer.runConsumer c2Evs).2 = [] ∧
    (Consumer.runConsumer c2Evs).1.batch.length = 3 ∧
    (Consumer.runConsumer c2Evs).1.timerDeadline = 3300 ∧
    (c2Evs.map Consumer.FetchEvent.time) = [500, 1400, 2300] ∧
    500 + Consumer.batchTimeoutMs < 2300 := by
  refine ⟨by decide, by decide, by decide, by decide, by decide⟩

/-- C2 as amended: the age timer is debounced — it measures
`batchTimeoutMs` from the most recent append (or size flush), not from
the first unflushed record.  In the serialized model every flush is of a
non-empty batch, and flushed records plus the retained batch are exactly
the successfully decoded records in arrival order — each record is
flushed at most once (no double flush) and none is lost before flushing. -/
theorem c2_amended (evs : List Consumer.FetchEvent) :
    ((Consumer.runConsumer evs).2.map Consumer.Flush.records).flatten ++
        (Consumer.runConsumer evs).1.batch
      = ((evs.map Consumer.FetchEvent.msgs).flatten).filterMap id ∧
    (∀ f ∈ (Consumer.runConsumer evs).2, f.records ≠ []) ∧
    (∀ (t : Nat) (s : Consumer.ConsumerState),
      (Consumer.resetTimer t s).timerDeadline = t + Consumer.batchTimeoutMs) := by
  refine ⟨?_, ?_, fun t s => rfl⟩
  · have h := foldl_runStep_conserve evs Consumer.initState []
    simpa [Consumer.runConsumer, Consumer.initState, Consumer.resetTimer] using h
  · intro f hf
    exact (foldl_runStep_flush_prop evs Consumer.initState []
      (by intro f hf; simp at hf) f hf).1

/-- Witness for C2's amended theorem at the concrete debounce schedule. -/
theorem c2_amended_witness :
    ((Consumer.runConsumer c2Evs).2.map Consumer.Flush.records).flatten ++
        (Consumer.runConsumer c2Evs).1.batch
      = ((c2Evs.map Consumer.FetchEvent.msgs).flatten).filterMap id ∧
    (∀ f ∈ (Consumer.runConsumer c2Evs).2, f.records ≠ []) ∧
    (∀ (t : Nat) (s : Consumer.ConsumerState),
      (Consumer.resetTimer t s).timerDeadline = t + Consumer.batchTimeoutMs) :=
  c2_amended c2Evs

/-- C7.  Every fetched message is acknowledged (the count of
acknowledgments equals the fetched count, malformed payloads included),
a payload that fails to deserialize is dropped while later messages are
still processed, and every successfully decoded payload is appended to
the batch in order. -/
theorem c7_poison_ack (batch : List LogEntry) (msgs : List (Option LogEntry)) :
    (Consumer.drainMsgs batch msgs).1 = batch ++ msgs.filterMap id ∧
    (Consumer.drainMsgs batch msgs).2 = msgs.length := by
  rw [drainMsgs_eq]
  exact ⟨rfl, rfl⟩

/-- Witness for C7 at a concrete fetched set with a malformed payload in
the middle. -/
theorem c7_poison_ack_witness :
    (Consumer.drainMsgs [testEntry] [some testEntryB, none, some testEntry]).1
        = [testEntry] ++ [some testEntryB, none,
            some testEntry].filterMap id ∧
    (Consumer.drainMsgs [testEntry] [some testEntryB, none, some testEntry]).2
        = [some testEntryB, none, some testEntry].length :=
  c7_poison_ack [testEntry] [some testEntryB, none, some testEntry]

/-- When every entry of a group encodes, the stream's values pair each
record with its decimal nanosecond timestamp, in order. -/
theorem streamValues_eq_map (enc : LogEntry → Option String) :
    ∀ (group : List LogEntry), (∀ e ∈ group, (enc e).isSome = true) →
    Loki.streamValues enc group =
      group.map fun e => (toString e.timestampNano, (enc e).getD "") := by
  intro group
  induction group with
  | nil => intro _; rfl
  | cons e rest ih =>
    intro h
    have he := h e (List.mem_cons_self e rest)
    obtain ⟨line, hline⟩ := Option.isSome_iff_exists.mp he
    have ihr := ih fun x hx => h x (List.mem_cons_of_mem e hx)
    show List.filterMap _ (e :: rest) = _
    rw [List.filterMap_cons]
    simp only [hline, Option.map_some']
    rw [List.map_cons]
    refine congrArg₂ List.cons ?_ ihr
    simp [hline]

/-- C8.  A non-empty batch whose records all encode is partitioned by the
grouping key (service, environment, trace identifier joined by dashes):
there is exactly one stream per distinct key, every record's key has a
stream, each stream is labeled from its group's first record, and each
stream pairs every record of its group, in order, with its
nanosecond-precision decimal timestamp string. -/
theorem c8_grouped_streams (enc : LogEntry → Option String)
    (entries : List LogEntry) (hne : entries ≠ [])
    (henc : ∀ e ∈ entries, (enc e).isSome = true) :
    ∃ req : Loki.PushRequest,
      Loki.SendBatchLogs enc entries = some req ∧
      req.streams.length = (Loki.streamKeys entries).length ∧
      (Loki.streamKeys entries).Nodup ∧
      (∀ e ∈ entries, Loki.groupKey e ∈ Loki.streamKeys entries) ∧
      (∀ k ∈ Loki.streamKeys entries,
        ∃ first rest, Loki.groupOf entries k = first :: rest ∧
          Loki.groupKey first = k ∧
          Loki.streamOfGroup enc (Loki.groupOf entries k) ∈ req.streams ∧
          (Loki.streamOfGroup enc (Loki.groupOf entries k)).stream =
            Loki.batchLabels first ∧
          (Loki.streamOfGroup enc (Loki.groupOf entries k)).values =
            (Loki.groupOf entries k).map fun e =>
              (toString e.timestampNano, (enc e).getD "")) := by
  have hlen : ¬ entries.length = 0 := fun h =>
    hne (List.eq_nil_of_length_eq_zero h)
  refine ⟨⟨(Loki.streamKeys entries).map fun k =>
      Loki.streamOfGroup enc (Loki.groupOf entries k)⟩, ?_, ?_, ?_, ?_, ?_⟩
  · simp [Loki.SendBatchLogs, hlen]
  · simp
  · exact List.nodup_dedup _
  · intro e he
    exact List.mem_dedup.mpr (List.mem_map_of_mem Loki.groupKey he)
  · intro k hk
    have hk' : k ∈ entries.map Loki.groupKey := List.mem_dedup.mp hk
    obtain ⟨e, he, hke⟩ := List.mem_map.mp hk'
    have hmem : e ∈ Loki.groupOf entries k := by
      simp [Loki.groupOf, List.mem_filter, he, hke]
    obtain ⟨first, rest, hcons⟩ : ∃ f r, Loki.groupOf entries k = f :: r := by
      cases hgo : Loki.groupOf entries k with
      | nil => rw [hgo] at hmem; cases hmem
      | cons f r => exact ⟨f, r, rfl⟩
    have hfirstmem : first ∈ Loki.groupOf entries k := by
      rw [hcons]; exact List.mem_cons_self _ _
    refine ⟨first, rest, hcons, ?_, ?_, ?_, ?_⟩
    · have hp := (List.mem_filter.mp hfirstmem).2
      simpa using hp
    · exact List.mem_map_of_mem _ hk
    · rw [hcons]; rfl
    · rw [hcons]
      show Loki.streamValues enc (first :: rest) = _
      refine streamValues_eq_map enc (first :: rest) ?_
      intro x hx
      rw [← hcons] at hx
      exact henc x (List.mem_of_mem_filter hx)

/-- Witness for C8 at a concrete three-record batch with two keys. -/
theorem c8_grouped_streams_witness :
    groupEntries ≠ [] ∧
    (∃ req : Loki.PushRequest,
      Loki.SendBatchLogs encOK groupEntries = some req ∧
      req.streams.length = (Loki.streamKeys groupEntries).length ∧
      (Loki.streamKeys groupEntries).Nodup ∧
      (∀ e ∈ groupEntries, Loki.groupKey e ∈ Loki.streamKeys groupEntries) ∧
      (∀ k ∈ Loki.streamKeys groupEntries,
        ∃ first rest, Loki.groupOf groupEntries k = first :: rest ∧
          Loki.groupKey first = k ∧
          Loki.streamOfGroup encOK (Loki.groupOf groupEntries k) ∈ req.streams ∧
          (Loki.streamOfGroup encOK (Loki.groupOf groupEntries k)).stream =
            Loki.batchLabels first ∧
          (Loki.streamOfGroup encOK (Loki.groupOf groupEntries k)).values =
            (Loki.groupOf groupEntries k).map fun e =>
              (toString e.timestampNano, (encOK e).getD ""))) :=
  ⟨by decide, c8_grouped_streams encOK groupEntries (by decide) (by decide)⟩

/-- C9.  An empty batch is a no-op end to end: `SendBatchLogs` returns
nil without performing any HTTP request, and the forwarder's
`processBatch` makes no sink call at all. -/
theorem c9_empty_batch_noop (enc : LogEntry → Option String)
    (sinkBatchOK : List LogEntry → Bool) (sinkOneOK : LogEntry → Bool) :
    Loki.SendBatchLogs enc [] = none ∧
    Consumer.processBatch sinkBatchOK sinkOneOK [] = ([], []) :=
  ⟨rfl, rfl⟩

/-- Witness for C9 at concrete encoder and sink oracles. -/
theorem c9_empty_batch_noop_witness :
    Loki.SendBatchLogs encOK [] = none ∧
    Consumer.processBatch rejectBatch acceptOne [] = ([], []) :=
  c9_empty_batch_noop encOK rejectBatch acceptOne

/-- C6.  On batch success exactly one sink call (the batch POST) is made;
on batch failure the batch POST is followed by one individual POST per
record — each record occurrence exactly once, in order — and the records
whose individual send failed are exactly the ones logged; nothing is
re-queued (the function's only outputs are sink calls and log lines). -/
theorem c6_batch_fallback (sinkBatchOK : List LogEntry → Bool)
    (sinkOneOK : LogEntry → Bool) (batch : List LogEntry) (hne : batch ≠ []) :
    (sinkBatchOK batch = true →
      Consumer.processBatch sinkBatchOK sinkOneOK batch =
        ([Consumer.SinkCall.batchCall batch], [])) ∧
    (sinkBatchOK batch = false →
      (Consumer.processBatch sinkBatchOK sinkOneOK batch).1 =
        Consumer.SinkCall.batchCall batch ::
          batch.map Consumer.SinkCall.singleCall ∧
      (∀ e : LogEntry,
        ((Consumer.processBatch sinkBatchOK sinkOneOK batch).1.count
            (Consumer.SinkCall.singleCall e)) = batch.count e) ∧
      (Consumer.processBatch sinkBatchOK sinkOneOK batch).2 =
        batch.filter fun e => !sinkOneOK e) := by
  have hlen : ¬ batch.length = 0 := fun h =>
    hne (List.eq_nil_of_length_eq_zero h)
  constructor
  · intro hok
    simp [Consumer.processBatch, hlen, hok]
  · intro hfail
    refine ⟨?_, ?_, ?_⟩
    · simp [Consumer.processBatch, hlen, hfail]
    · intro e
      have hinj : Function.Injective Consumer.SinkCall.singleCall := by
        intro a b h
        injection h
      have hcnt := List.count_map_of_injective batch
        Consumer.SinkCall.singleCall hinj e
      simp [Consumer.processBatch, hlen, hfail, List.count_cons, hcnt]
    · simp [Consumer.processBatch, hlen, hfail]

/-- Witness for C6 at a concrete two-record batch with a rejecting batch
sink and an accepting individual sink. -/
theorem c6_batch_fallback_witness :
    ([testEntry, testEntryB] : List LogEntry) ≠ [] ∧
    ((rejectBatch [testEntry, testEntryB] = true →
      Consumer.processBatch rejectBatch acceptOne [testEntry, testEntryB] =
        ([Consumer.SinkCall.batchCall [testEntry, testEntryB]], [])) ∧
    (rejectBatch [testEntry, testEntryB] = false →
      (Consumer.processBatch rejectBatch acceptOne [testEntry, testEntryB]).1 =
        Consumer.SinkCall.batchCall [testEntry, testEntryB] ::
          [testEntry, testEntryB].map Consumer.SinkCall.singleCall ∧
      (∀ e : LogEntry,
        ((Consumer.processBatch rejectBatch acceptOne
            [testEntry, testEntryB]).1.count
            (Consumer.SinkCall.singleCall e)) =
          [testEntry, testEntryB].count e) ∧
      (Consumer.processBatch rejectBatch acceptOne [testEntry, testEntryB]).2 =
        [testEntry, testEntryB].filter fun e => !acceptOne e)) :=
  ⟨by decide, c6_batch_fallback rejectBatch acceptOne [testEntry, testEntryB]
    (by decide)⟩

/-- C10.  The fallback path labels its stream with a strictly larger label
set than the batch path: the batch labels are an initial sublist of the
single-record labels, which add `method` and `status`; in particular the
same record POSTed alone and POSTed via a singleton batch lands in
differently-labeled streams. -/
theorem c10_fallback_labels (enc : LogEntry → Option String) (e : LogEntry)
    (line : String) (henc : enc e = some line) :
    Loki.SendLog enc e =
      some ⟨[⟨Loki.singleLabels e, [(toString e.timestampNano, line)]⟩]⟩ ∧
    Loki.SendBatchLogs enc [e] =
      some ⟨[⟨Loki.batchLabels e, [(toString e.timestampNano, line)]⟩]⟩ ∧
    (Loki.batchLabels e).Sublist (Loki.singleLabels e) ∧
    (Loki.batchLabels e).length < (Loki.singleLabels e).length ∧
    (∀ v : String, ("method", v) ∉ Loki.batchLabels e) ∧
    Loki.singleLabels e ≠ Loki.batchLabels e := by
  refine ⟨?_, ?_, ?_, ?_, ?_, ?_⟩
  · simp [Loki.SendLog, henc]
  · simp [Loki.SendBatchLogs, Loki.streamKeys, Loki.streamOfGroup,
      Loki.groupOf, Loki.streamValues, List.filter_cons, henc]
  · show (Loki.batchLabels e).Sublist
      (Loki.batchLabels e ++ [("method", e.method), ("status", toString e.status)])
    exact List.sublist_append_left _ _
  · simp [Loki.batchLabels, Loki.singleLabels]
  · intro v hv
    simp only [Loki.batchLabels, List.mem_cons, List.mem_singleton,
      Prod.mk.injEq, List.not_mem_nil] at hv
    rcases hv with ⟨h, _⟩ | ⟨h, _⟩ | ⟨h, _⟩ | h
    · exact absurd h (by decide)
    · exact absurd h (by decide)
    · exact absurd h (by decide)
    · exact h
  · intro h
    have := congrArg List.length h
    simp [Loki.batchLabels, Loki.singleLabels] at this

/-- Witness for C10 at the fixed test record and a total encoder. -/
theorem c10_fallback_labels_witness :
    encOK testEntry = some "line" ∧
    (Loki.SendLog encOK testEntry =
      some ⟨[⟨Loki.singleLabels testEntry,
        [(toString testEntry.timestampNano, "line")]⟩]⟩ ∧
    Loki.SendBatchLogs encOK [testEntry] =
      some ⟨[⟨Loki.batchLabels testEntry,
        [(toString testEntry.timestampNano, "line")]⟩]⟩ ∧
    (Loki.batchLabels testEntry).Sublist (Loki.singleLabels testEntry) ∧
    (Loki.batchLabels testEntry).length <
      (Loki.singleLabels testEntry).length ∧
    (∀ v : String, ("method", v) ∉ Loki.batchLabels testEntry) ∧
    Loki.singleLabels testEntry ≠ Loki.batchLabels testEntry) :=
  ⟨rfl, c10_fallback_labels encOK testEntry "line" rfl⟩

end LogTrace
